import Mathlib

/-!
A shallow embedding of `src/garbled-circuit.py` (a single-process simulation of
Yao's garbled-circuit technique: a garbled 3-bit ripple-carry adder), together
with theorems settling the claims about it.

Modelling conventions, all taken from the source:
* Python integers are `Nat` (all values in the program are nonnegative);
  `random.getrandbits(64)` draws are taken modulo `2 ^ 64`.
* `hash_value` computes a SHA-256 digest of the string `f"{k1}_{k2}_{gate_id}"`
  and converts it to an integer.  The digest computation itself is abstracted
  as a function parameter `H : Nat → Nat → Nat → Nat`; every claim about the
  pad depends only on it being a deterministic pure function of
  `(k1, k2, gate_id)`, which the parameter models exactly.
* The process-wide RNG is modelled by a draw function `rand : Nat → Nat`
  indexed by the order of the `getrandbits(64)` calls, and `random.shuffle`
  by a shuffle function `sh` indexed by the gate id; theorems that need the
  shuffle to be a real shuffle assume `(sh i l).Perm l`.
* The process-wide gate-id counter (`get_next_gate_id`) is threaded
  explicitly: circuit construction takes the current counter value and
  returns the updated one on success.
* Python object mutation is explicit state passing: the circuit's wire dict
  is an association list from wire name to `Wire` value (gates alias wires
  through the dict's names; every wire a gate references is stored in the
  dict under a unique name, so name-keyed lookup models the object aliasing
  exactly), and each mutation step returns the updated map.
* `raise ValueError` / `KeyError` become `Except BuildError`; a function that
  can return Python `None` returns an `Option`.
-/

namespace GarbledCircuit

/-- The pad-derivation function type: models the SHA-256 based
`hash_value(k1, k2, gate_id)` of the source, abstracted as a pure function. -/
abbrev Hash := Nat → Nat → Nat → Nat

/-- `hash_value(k1, k2, gate_id)`: a deterministic pad derived from the two
keys and the gate id (the SHA-256 digest is the parameter `H`). -/
def hash_value (H : Hash) (k1 k2 gate_id : Nat) : Nat :=
  H k1 k2 gate_id

/-- `encrypt(key1, key2, gate_id, out_label) = out_label ^ pad`. -/
def encrypt (H : Hash) (key1 key2 gate_id out_label : Nat) : Nat :=
  out_label ^^^ hash_value H key1 key2 gate_id

/-- `decrypt(key1, key2, gate_id, ciphertext) = ciphertext ^ pad`. -/
def decrypt (H : Hash) (key1 key2 gate_id ciphertext : Nat) : Nat :=
  ciphertext ^^^ hash_value H key1 key2 gate_id

/-- A wire: name, the two labels (`labels = {0: label0, 1: label1}`), the
optional plaintext value, and the optional evaluated label. -/
structure Wire where
  name : String
  label0 : Nat
  label1 : Nat
  value : Option Nat
  evaluated_label : Option Nat
deriving DecidableEq, Repr

/-- `Wire.__init__`: the two labels are fresh 64-bit draws from the RNG
(draw indices `k` and `k+1`); `value` and `evaluated_label` start unset
(the constructor's optional `value` argument is always followed by
`set_value` in `_new_wire`, modelled separately). -/
def mkWire (rand : Nat → Nat) (k : Nat) (name : String) : Wire :=
  { name := name
    label0 := rand k % 2 ^ 64
    label1 := rand (k + 1) % 2 ^ 64
    value := none
    evaluated_label := none }

/-- The wire's label dict `labels[v]`: defined at keys 0 and 1 only
(any other key is a Python `KeyError`, i.e. `none`). -/
def Wire.labels (w : Wire) (v : Nat) : Option Nat :=
  if v = 0 then some w.label0 else if v = 1 then some w.label1 else none

/-- The label dict lookup at a key already known to be a bit:
`labelFor w 0 = w.label0` and `labelFor w b = w.label1` otherwise
(only ever used at `b < 2`, where it agrees with `Wire.labels`). -/
def labelFor (w : Wire) (b : Nat) : Nat :=
  if b = 0 then w.label0 else w.label1

/-- Failures of circuit construction: the explicit `ValueError` raised for
inputs that are not 3 bits long, and the unguarded `KeyError` raised by
`self.labels[value]` when `set_value` is called with a non-bit. -/
inductive BuildError where
  | invalidInputLength
  | keyError
deriving DecidableEq, Repr

/-- `Wire.set_value`: records the plaintext value and the matching label;
a `KeyError` (value outside the label dict's keys {0,1}) is an error. -/
def Wire.set_value (w : Wire) (v : Nat) : Except BuildError Wire :=
  match w.labels v with
  | some lab => .ok { w with value := some v, evaluated_label := some lab }
  | none => .error .keyError

/-- `Wire.get_bit_from_label`: reverse lookup of a label in the label dict
(iteration order of the dict is key 0 then key 1); `none` if neither
label matches. -/
def Wire.get_bit_from_label (w : Wire) (lab : Nat) : Option Nat :=
  if lab = w.label0 then some 0 else if lab = w.label1 then some 1 else none

/-- The closed set of boolean functions the program ever stores in a gate's
`func` field: `xor_gate (a ^ b)`, `and_gate (a & b)`, `or_gate (a | b)`. -/
inductive GKind where
  | XOR
  | AND
  | OR
deriving DecidableEq, Repr

/-- The boolean function of a gate kind, on Python ints. -/
def GKind.func : GKind → Nat → Nat → Nat
  | .XOR, a, b => a ^^^ b
  | .AND, a, b => a &&& b
  | .OR, a, b => a ||| b

/-- A gate: the names of its two input wires and its output wire (the names
key the circuit's wire dict, which is how Python's object aliasing is
modelled), its boolean function, its type tag, its unique id, and its
garbled table (ciphertexts only, in stored order). -/
structure Gate where
  in1 : String
  in2 : String
  out : String
  kind : GKind
  gate_type : String
  gate_id : Nat
  garbled_table : List Nat
deriving DecidableEq, Repr

/-- The type of the table-shuffling function: models `random.shuffle` of the
tagged table, indexed by the gate id it runs for.  Theorems that need it to
be a genuine shuffle assume `(sh i l).Perm l`. -/
abbrev ShuffleFn := Nat → List ((Nat × Nat) × Nat) → List ((Nat × Nat) × Nat)

/-- The four input-bit combinations, in the order of the two nested
`for a in [0, 1]: for b in [0, 1]` loops of `Gate._garble`. -/
def combos : List (Nat × Nat) :=
  [(0, 0), (0, 1), (1, 0), (1, 1)]

/-- `Gate._garble` before the shuffle: for each combination `(a, b)` the pair
`((a, b), encrypt(labels1[a], labels2[b], gate_id, labels_out[func(a, b)]))`. -/
def garbleTable (H : Hash) (w1 w2 wout : Wire) (gid : Nat) (k : GKind) :
    List ((Nat × Nat) × Nat) :=
  combos.map fun p =>
    (p, encrypt H (labelFor w1 p.1) (labelFor w2 p.2) gid
      (labelFor wout (k.func p.1 p.2)))

/-- `Gate.__init__` together with `Gate._garble`: the gate is constructed
with a fresh id and its garbled table is built eagerly — the tagged table
is shuffled and the combination tags are discarded, keeping only the
ciphertexts.  Nothing ever writes to the table afterwards (the embedding's
evaluation functions return labels and wires, never a modified gate). -/
def mkGate (H : Hash) (sh : ShuffleFn) (w1 w2 wout : Wire) (k : GKind)
    (gt : String) (gid : Nat) : Gate :=
  { in1 := w1.name
    in2 := w2.name
    out := wout.name
    kind := k
    gate_type := gt
    gate_id := gid
    garbled_table := (sh gid (garbleTable H w1 w2 wout gid k)).map Prod.snd }

/-- The trial-decryption loop of `Gate.evaluate`: scan the stored table in
order, return the first decryption equal to one of the output wire's two
labels, `none` if every ciphertext misses. -/
def tryDecrypt (H : Hash) (gid la lb o0 o1 : Nat) : List Nat → Option Nat
  | [] => none
  | ct :: rest =>
    let d := decrypt H la lb gid ct
    if d = o0 ∨ d = o1 then some d else tryDecrypt H gid la lb o0 o1 rest

/-- `Gate.evaluate(label_a, label_b)`: trial-decrypt the table; on a hit,
record the decrypted label on the output wire and return it; on a miss of
all four ciphertexts, print a warning to stderr and return `None`, leaving
the output wire untouched.  The returned pair is (return value, output
wire after the call). -/
def Gate.evaluate (H : Hash) (g : Gate) (label_a label_b : Nat) (wout : Wire) :
    Option Nat × Wire :=
  match tryDecrypt H g.gate_id label_a label_b wout.label0 wout.label1
      g.garbled_table with
  | some d => (some d, { wout with evaluated_label := some d })
  | none => (none, wout)

/-- The circuit's wire dict `self.wires`, in insertion order. -/
abbrev WireMap := List (String × Wire)

/-- Dict lookup by wire name. -/
def getWire : WireMap → String → Option Wire
  | [], _ => none
  | (nm, w) :: rest, n => if n = nm then some w else getWire rest n

/-- Dict update by wire name (models mutating the aliased wire object). -/
def setWire : WireMap → String → Wire → WireMap
  | [], _, _ => []
  | (nm, w) :: rest, n, w' =>
    if n = nm then (nm, w') :: rest else (nm, w) :: setWire rest n w'

/-- The gate loop of `GarbledFullAdderCircuit.evaluate`: for each gate in
order, read the two input wires' evaluated labels; if either is missing,
print an error and return `None` immediately (modelled as `none`); otherwise
call the gate's `evaluate` (whose return value the loop discards) and
continue with the output wire updated by that call.  The `getWire` misses
cannot occur for circuits this program builds (every gate's wires are in
the dict); they are mapped to `none`. -/
def runGates (H : Hash) : List Gate → WireMap → Option WireMap
  | [], ws => some ws
  | g :: rest, ws =>
    match getWire ws g.in1, getWire ws g.in2, getWire ws g.out with
    | some w1, some w2, some wout =>
      match w1.evaluated_label, w2.evaluated_label with
      | some la, some lb =>
        runGates H rest (setWire ws g.out (g.evaluate H la lb wout).2)
      | _, _ => none
    | _, _, _ => none

/-- Decoding one output wire after evaluation:
`wire.get_bit_from_label(wire.evaluated_label)` (a still-unset evaluated
label decodes to `None`, since no label equals Python's `None`). -/
def decodeWire (ws : WireMap) (n : String) : Option Nat :=
  match getWire ws n with
  | some w =>
    match w.evaluated_label with
    | some lab => w.get_bit_from_label lab
    | none => none
  | none => none

/-- The circuit object: the wire dict, the gate list in construction order,
and the two designated output wire groups (`full_sum_wires` and
`result_wires`, stored as wire names). -/
structure GarbledFullAdderCircuit where
  wires : WireMap
  gates : List Gate
  full_sum_wires : List String
  result_wires : List String
deriving DecidableEq, Repr

/-- `GarbledFullAdderCircuit.evaluate`: run the gate loop, then return the
list of decoded bits of the `result_wires` only (this is the value the
caller receives; a missing input label aborts with `None`). -/
def GarbledFullAdderCircuit.evaluate (H : Hash) (c : GarbledFullAdderCircuit) :
    Option (List (Option Nat)) :=
  (runGates H c.gates c.wires).map fun ws => c.result_wires.map (decodeWire ws)

/-- The driver-side retrieval of the full sum (`print_details` and the
`__main__` block decode `circuit.full_sum_wires` the same way after
`evaluate` has run): the decoded bits of the `full_sum_wires` in the
post-evaluation wire state. -/
def GarbledFullAdderCircuit.fullSumBits (H : Hash)
    (c : GarbledFullAdderCircuit) : Option (List (Option Nat)) :=
  (runGates H c.gates c.wires).map fun ws =>
    c.full_sum_wires.map (decodeWire ws)

/-- `GarbledFullAdderCircuit.__init__` + `_build_circuit`: check the two
input lengths first (raising `InvalidInputLength` before any wire or gate
exists and before the gate-id counter moves); then create the six input
wires (each taking two RNG draws and a `set_value`, which can raise
`KeyError` on a non-bit), the twelve gates of the ripple-carry adder in
order (consuming gate ids `gid0 .. gid0+11`), and the two output wire
groups.  Returns the circuit together with the advanced gate-id counter. -/
def GarbledFullAdderCircuit.build (H : Hash) (rand : Nat → Nat)
    (sh : ShuffleFn) (a_bits b_bits : List Nat) (gid0 : Nat) :
    Except BuildError (GarbledFullAdderCircuit × Nat) :=
  if a_bits.length ≠ 3 ∨ b_bits.length ≠ 3 then .error .invalidInputLength
  else do
    let a0 ← (mkWire rand 0 "a0").set_value (a_bits.getD 0 0)
    let a1 ← (mkWire rand 2 "a1").set_value (a_bits.getD 1 0)
    let a2 ← (mkWire rand 4 "a2").set_value (a_bits.getD 2 0)
    let b0 ← (mkWire rand 6 "b0").set_value (b_bits.getD 0 0)
    let b1 ← (mkWire rand 8 "b1").set_value (b_bits.getD 1 0)
    let b2 ← (mkWire rand 10 "b2").set_value (b_bits.getD 2 0)
    let sum0 := mkWire rand 12 "sum0"
    let gate1 := mkGate H sh a0 b0 sum0 .XOR "XOR" gid0
    let carry0 := mkWire rand 14 "carry0"
    let gate2 := mkGate H sh a0 b0 carry0 .AND "AND" (gid0 + 1)
    let temp1 := mkWire rand 16 "temp1"
    let gate3 := mkGate H sh a1 b1 temp1 .XOR "XOR" (gid0 + 2)
    let sum1 := mkWire rand 18 "sum1"
    let gate4 := mkGate H sh temp1 carry0 sum1 .XOR "XOR" (gid0 + 3)
    let and1 := mkWire rand 20 "and1"
    let gate5 := mkGate H sh a1 b1 and1 .AND "AND" (gid0 + 4)
    let and2 := mkWire rand 22 "and2"
    let gate6 := mkGate H sh temp1 carry0 and2 .AND "AND" (gid0 + 5)
    let carry1 := mkWire rand 24 "carry1"
    let gate7 := mkGate H sh and1 and2 carry1 .OR "OR" (gid0 + 6)
    let temp2 := mkWire rand 26 "temp2"
    let gate8 := mkGate H sh a2 b2 temp2 .XOR "XOR" (gid0 + 7)
    let sum2 := mkWire rand 28 "sum2"
    let gate9 := mkGate H sh temp2 carry1 sum2 .XOR "XOR" (gid0 + 8)
    let and3 := mkWire rand 30 "and3"
    let gate10 := mkGate H sh a2 b2 and3 .AND "AND" (gid0 + 9)
    let and4 := mkWire rand 32 "and4"
    let gate11 := mkGate H sh temp2 carry1 and4 .AND "AND" (gid0 + 10)
    let carry2 := mkWire rand 34 "carry2"
    let gate12 := mkGate H sh and3 and4 carry2 .OR "OR" (gid0 + 11)
    return ({ wires := [("a0", a0), ("a1", a1), ("a2", a2),
                        ("b0", b0), ("b1", b1), ("b2", b2),
                        ("sum0", sum0), ("carry0", carry0), ("temp1", temp1),
                        ("sum1", sum1), ("and1", and1), ("and2", and2),
                        ("carry1", carry1), ("temp2", temp2), ("sum2", sum2),
                        ("and3", and3), ("and4", and4), ("carry2", carry2)]
              gates := [gate1, gate2, gate3, gate4, gate5, gate6, gate7,
                        gate8, gate9, gate10, gate11, gate12]
              full_sum_wires := ["sum0", "sum1", "sum2", "carry2"]
              result_wires := ["sum1", "sum2", "carry2"] }, gid0 + 12)

/-- The spec's §3 gate invariant as a decidable check on one gate's three
wires: decrypting any table entry with the labels of a *different* input
combination never lands on either of the output wire's labels. -/
def crossMiss (H : Hash) (w1 w2 wout : Wire) (gid : Nat) (k : GKind)
    (p q : Nat × Nat) : Bool :=
  let d := decrypt H (labelFor w1 p.1) (labelFor w2 p.2) gid
    (encrypt H (labelFor w1 q.1) (labelFor w2 q.2) gid
      (labelFor wout (k.func q.1 q.2)))
  !(d == wout.label0) && !(d == wout.label1)

/-- The spec's §3 gate invariant over all pairs of input combinations. -/
def goodGateWiresB (H : Hash) (w1 w2 wout : Wire) (gid : Nat) (k : GKind) :
    Bool :=
  combos.all fun p => combos.all fun q =>
    (p == q) || crossMiss H w1 w2 wout gid k p q

/-- The gate invariant read off a circuit's wire dict. -/
def goodGateB (H : Hash) (ws : WireMap) (g : Gate) : Bool :=
  match getWire ws g.in1, getWire ws g.in2, getWire ws g.out with
  | some w1, some w2, some wout => goodGateWiresB H w1 w2 wout g.gate_id g.kind
  | _, _, _ => false

/-- The spec's §3 wire invariant: every wire's two labels are distinct. -/
def distinctLabelsB (ws : WireMap) : Bool :=
  ws.all fun p => p.2.label0 != p.2.label1

/-- The spec's §3 invariants for a whole circuit (wire-label distinctness
plus the per-gate no-collision invariant), as one decidable check. -/
def circuitSoundB (H : Hash) (c : GarbledFullAdderCircuit) : Bool :=
  distinctLabelsB c.wires && c.gates.all (goodGateB H c.wires)

/-- The `w`-bit LSB-first encoding of `S` as the evaluator's decoded output
(each entry a successfully decoded bit). -/
def natBits (S w : Nat) : List (Option Nat) :=
  (List.range w).map fun i => some (S / 2 ^ i % 2)

theorem labels_of_bit (w : Wire) (v : Nat) (h : v < 2) :
    w.labels v = some (labelFor w v) := by
  interval_cases v <;> rfl

theorem labels_of_nonbit (w : Wire) (v : Nat) (h : 2 ≤ v) :
    w.labels v = none := by
  have h0 : v ≠ 0 := by omega
  have h1 : v ≠ 1 := by omega
  simp [Wire.labels, h0, h1]

theorem set_value_bit (w : Wire) (v : Nat) (h : v < 2) :
    w.set_value v =
      .ok { w with value := some v, evaluated_label := some (labelFor w v) } := by
  simp [Wire.set_value, labels_of_bit w v h]

theorem set_value_nonbit (w : Wire) (v : Nat) (h : 2 ≤ v) :
    w.set_value v = .error .keyError := by
  simp [Wire.set_value, labels_of_nonbit w v h]

theorem labelFor_mem (w : Wire) (b : Nat) (h : b < 2) :
    labelFor w b = w.label0 ∨ labelFor w b = w.label1 := by
  interval_cases b
  · exact Or.inl rfl
  · exact Or.inr rfl

theorem GKind.func_lt_two (k : GKind) (a b : Nat) (ha : a < 2) (hb : b < 2) :
    k.func a b < 2 := by
  cases k <;> interval_cases a <;> interval_cases b <;> decide

theorem decrypt_encrypt (H : Hash) (la lb gid t : Nat) :
    decrypt H la lb gid (encrypt H la lb gid t) = t :=
  Nat.xor_cancel_right _ _

theorem get_bit_from_label_labelFor (w : Wire) (b : Nat) (hb : b < 2)
    (hd : w.label0 ≠ w.label1) :
    w.get_bit_from_label (labelFor w b) = some b := by
  interval_cases b
  · simp [Wire.get_bit_from_label, labelFor]
  · simp [Wire.get_bit_from_label, labelFor, hd, Ne.symm hd]

/-- If every ciphertext of the table misses (its decryption is neither
output label), the trial-decryption loop returns `none`. -/
theorem tryDecrypt_none (H : Hash) (gid la lb o0 o1 : Nat) (l : List Nat)
    (hall : ∀ ct ∈ l, decrypt H la lb gid ct ≠ o0 ∧
      decrypt H la lb gid ct ≠ o1) :
    tryDecrypt H gid la lb o0 o1 l = none := by
  induction l with
  | nil => rfl
  | cons ct rest ih =>
    have hct := hall ct (List.mem_cons_self _ _)
    have : ¬ (decrypt H la lb gid ct = o0 ∨ decrypt H la lb gid ct = o1) := by
      rintro (h | h)
      · exact hct.1 h
      · exact hct.2 h
    simp only [tryDecrypt, this, if_false]
    exact ih fun ct' h' => hall ct' (List.mem_cons_of_mem _ h')

/-- If some ciphertext of the table decrypts to `t`, `t` is one of the
output labels, and every ciphertext whose decryption is an output label
decrypts to `t`, then the trial-decryption loop returns `t`. -/
theorem tryDecrypt_hit (H : Hash) (gid la lb o0 o1 t : Nat) (l : List Nat)
    (ht : t = o0 ∨ t = o1)
    (hmem : ∃ ct, ct ∈ l ∧ decrypt H la lb gid ct = t)
    (hall : ∀ ct ∈ l,
      (decrypt H la lb gid ct = o0 ∨ decrypt H la lb gid ct = o1) →
      decrypt H la lb gid ct = t) :
    tryDecrypt H gid la lb o0 o1 l = some t := by
  induction l with
  | nil =>
    obtain ⟨ct, hin, _⟩ := hmem
    exact absurd hin (List.not_mem_nil _)
  | cons ct rest ih =>
    by_cases hd : decrypt H la lb gid ct = o0 ∨ decrypt H la lb gid ct = o1
    · have heq := hall ct (List.mem_cons_self _ _) hd
      simp only [tryDecrypt, hd, if_true, heq]
      rw [if_pos ht]
    · simp only [tryDecrypt, hd, if_false]
      refine ih ?_ fun ct' h' => hall ct' (List.mem_cons_of_mem _ h')
      obtain ⟨ct', hin, he⟩ := hmem
      rcases List.mem_cons.mp hin with rfl | h
      · exact absurd (he ▸ ht) hd
      · exact ⟨ct', h, he⟩

/-- Membership in a constructed gate's stored table, assuming the shuffle
is a permutation: every stored ciphertext is the encryption for one of the
four input combinations, and conversely. -/
theorem mkGate_table_mem (H : Hash) (sh : ShuffleFn) (w1 w2 wout : Wire)
    (k : GKind) (gt : String) (gid : Nat)
    (hsh : ∀ i l, List.Perm (sh i l) l) (ct : Nat) :
    ct ∈ (mkGate H sh w1 w2 wout k gt gid).garbled_table ↔
      ∃ p ∈ combos, ct = encrypt H (labelFor w1 p.1) (labelFor w2 p.2) gid
        (labelFor wout (k.func p.1 p.2)) := by
  constructor
  · intro hin
    simp only [mkGate, List.mem_map] at hin
    obtain ⟨pr, hpr, hsnd⟩ := hin
    have hpr' : pr ∈ garbleTable H w1 w2 wout gid k :=
      (hsh gid _).mem_iff.mp hpr
    simp only [garbleTable, List.mem_map] at hpr'
    obtain ⟨p, hp, hpe⟩ := hpr'
    exact ⟨p, hp, by rw [← hsnd, ← hpe]⟩
  · rintro ⟨p, hp, rfl⟩
    simp only [mkGate, List.mem_map]
    refine ⟨(p, encrypt H (labelFor w1 p.1) (labelFor w2 p.2) gid
      (labelFor wout (k.func p.1 p.2))), ?_, rfl⟩
    refine (hsh gid _).mem_iff.mpr ?_
    simp only [garbleTable, List.mem_map]
    exact ⟨p, hp, rfl⟩

/-- Unfolding of the gate invariant into the twelve cross-combination
no-collision facts. -/
theorem goodGateWiresB_spec (H : Hash) (w1 w2 wout : Wire) (gid : Nat)
    (k : GKind) (hgood : goodGateWiresB H w1 w2 wout gid k = true)
    (p q : Nat × Nat) (hp : p ∈ combos) (hq : q ∈ combos) (hpq : p ≠ q) :
    decrypt H (labelFor w1 p.1) (labelFor w2 p.2) gid
        (encrypt H (labelFor w1 q.1) (labelFor w2 q.2) gid
          (labelFor wout (k.func q.1 q.2))) ≠ wout.label0 ∧
      decrypt H (labelFor w1 p.1) (labelFor w2 p.2) gid
        (encrypt H (labelFor w1 q.1) (labelFor w2 q.2) gid
          (labelFor wout (k.func q.1 q.2))) ≠ wout.label1 := by
  simp only [goodGateWiresB, List.all_eq_true] at hgood
  have h := hgood p hp q hq
  rcases Bool.or_eq_true_iff.mp h with h' | h'
  · exact absurd (by simpa using h') hpq
  · simp only [crossMiss, Bool.and_eq_true, Bool.not_eq_true',
      beq_eq_false_iff_ne, ne_eq] at h'
    exact h'

/-- The correct table entry for combination `(a, b)` decrypts, under the
matching keys, to the output wire's label for `func(a, b)`; under the gate
invariant every other entry misses; hence the trial decryption returns
exactly that label. -/
theorem tryDecrypt_mkGate (H : Hash) (sh : ShuffleFn) (w1 w2 wout : Wire)
    (k : GKind) (gt : String) (gid : Nat) (a b : Nat)
    (ha : a < 2) (hb : b < 2)
    (hsh : ∀ i l, List.Perm (sh i l) l)
    (hgood : goodGateWiresB H w1 w2 wout gid k = true) :
    tryDecrypt H gid (labelFor w1 a) (labelFor w2 b) wout.label0 wout.label1
      (mkGate H sh w1 w2 wout k gt gid).garbled_table =
      some (labelFor wout (k.func a b)) := by
  have hab : (a, b) ∈ combos := by
    interval_cases a <;> interval_cases b <;> simp [combos]
  refine tryDecrypt_hit H gid (labelFor w1 a) (labelFor w2 b) _ _ _ _
    (labelFor_mem wout (k.func a b) (GKind.func_lt_two k a b ha hb)) ?_ ?_
  · refine ⟨encrypt H (labelFor w1 a) (labelFor w2 b) gid
      (labelFor wout (k.func a b)), ?_, decrypt_encrypt H _ _ _ _⟩
    exact (mkGate_table_mem H sh w1 w2 wout k gt gid hsh _).mpr
      ⟨(a, b), hab, rfl⟩
  · intro ct hin hvalid
    obtain ⟨q, hq, rfl⟩ :=
      (mkGate_table_mem H sh w1 w2 wout k gt gid hsh ct).mp hin
    by_cases hpq : (a, b) = q
    · rw [← hpq]
      exact decrypt_encrypt H _ _ _ _
    · have hmiss := goodGateWiresB_spec H w1 w2 wout gid k hgood (a, b) q
        hab hq hpq
      rcases hvalid with h | h
      · exact absurd h hmiss.1
      · exact absurd h hmiss.2

/-- C2: for every gate and every input combination `(a, b)`, calling the
gate's `evaluate` with the label of its first input wire for bit `a` and of
its second input wire for bit `b` returns exactly the output wire's label
for bit `func(a, b)` and records that label as the output wire's
`evaluated_label` — assuming the shuffle really permutes the table and the
spec's §3 gate invariant (no cross-combination decryption collision, which
the spec asserts holds with overwhelming probability for the SHA-256 pad). -/
theorem gate_evaluate_correct (H : Hash) (sh : ShuffleFn) (w1 w2 wout : Wire)
    (k : GKind) (gt : String) (gid : Nat) (a b : Nat)
    (ha : a < 2) (hb : b < 2)
    (hsh : ∀ i l, List.Perm (sh i l) l)
    (hgood : goodGateWiresB H w1 w2 wout gid k = true) :
    (mkGate H sh w1 w2 wout k gt gid).evaluate H (labelFor w1 a)
        (labelFor w2 b) wout =
      (some (labelFor wout (k.func a b)),
        { wout with evaluated_label := some (labelFor wout (k.func a b)) }) := by
  have h := tryDecrypt_mkGate H sh w1 w2 wout k gt gid a b ha hb hsh hgood
  simp only [Gate.evaluate, mkGate] at h ⊢
  rw [h]

/-- An input wire right after `_new_wire(name, value)`: a fresh wire whose
`set_value` has recorded the plaintext bit and the matching label. -/
def inWire (rand : Nat → Nat) (k : Nat) (n : String) (v : Nat) : Wire :=
  { mkWire rand k n with
    value := some v
    evaluated_label := some (labelFor (mkWire rand k n) v) }

@[simp] theorem inWire_name (rand : Nat → Nat) (k : Nat) (n : String)
    (v : Nat) : (inWire rand k n v).name = n := rfl

@[simp] theorem inWire_label0 (rand : Nat → Nat) (k : Nat) (n : String)
    (v : Nat) : (inWire rand k n v).label0 = (mkWire rand k n).label0 := rfl

@[simp] theorem inWire_label1 (rand : Nat → Nat) (k : Nat) (n : String)
    (v : Nat) : (inWire rand k n v).label1 = (mkWire rand k n).label1 := rfl

@[simp] theorem inWire_evaluated_label (rand : Nat → Nat) (k : Nat)
    (n : String) (v : Nat) :
    (inWire rand k n v).evaluated_label =
      some (labelFor (mkWire rand k n) v) := rfl

@[simp] theorem labelFor_inWire (rand : Nat → Nat) (k : Nat) (n : String)
    (v b : Nat) :
    labelFor (inWire rand k n v) b = labelFor (mkWire rand k n) b := by
  simp [labelFor, inWire]

@[simp] theorem mkWire_name (rand : Nat → Nat) (k : Nat) (n : String) :
    (mkWire rand k n).name = n := rfl

@[simp] theorem mkWire_evaluated_label (rand : Nat → Nat) (k : Nat)
    (n : String) : (mkWire rand k n).evaluated_label = none := rfl

@[simp] theorem mkGate_in1 (H : Hash) (sh : ShuffleFn) (w1 w2 wout : Wire)
    (k : GKind) (gt : String) (gid : Nat) :
    (mkGate H sh w1 w2 wout k gt gid).in1 = w1.name := rfl

@[simp] theorem mkGate_in2 (H : Hash) (sh : ShuffleFn) (w1 w2 wout : Wire)
    (k : GKind) (gt : String) (gid : Nat) :
    (mkGate H sh w1 w2 wout k gt gid).in2 = w2.name := rfl

@[simp] theorem mkGate_out (H : Hash) (sh : ShuffleFn) (w1 w2 wout : Wire)
    (k : GKind) (gt : String) (gid : Nat) :
    (mkGate H sh w1 w2 wout k gt gid).out = wout.name := rfl

@[simp] theorem mkGate_gate_id (H : Hash) (sh : ShuffleFn) (w1 w2 wout : Wire)
    (k : GKind) (gt : String) (gid : Nat) :
    (mkGate H sh w1 w2 wout k gt gid).gate_id = gid := rfl

@[simp] theorem mkGate_kind (H : Hash) (sh : ShuffleFn) (w1 w2 wout : Wire)
    (k : GKind) (gt : String) (gid : Nat) :
    (mkGate H sh w1 w2 wout k gt gid).kind = k := rfl

/-- The circuit `_build_circuit` produces for bit inputs
`[x0, x1, x2]` and `[y0, y1, y2]`, written out explicitly. -/
def adderCircuit (H : Hash) (rand : Nat → Nat) (sh : ShuffleFn)
    (x0 x1 x2 y0 y1 y2 gid0 : Nat) : GarbledFullAdderCircuit :=
  { wires := [("a0", inWire rand 0 "a0" x0), ("a1", inWire rand 2 "a1" x1),
              ("a2", inWire rand 4 "a2" x2), ("b0", inWire rand 6 "b0" y0),
              ("b1", inWire rand 8 "b1" y1), ("b2", inWire rand 10 "b2" y2),
              ("sum0", mkWire rand 12 "sum0"), ("carry0", mkWire rand 14 "carry0"),
              ("temp1", mkWire rand 16 "temp1"), ("sum1", mkWire rand 18 "sum1"),
              ("and1", mkWire rand 20 "and1"), ("and2", mkWire rand 22 "and2"),
              ("carry1", mkWire rand 24 "carry1"), ("temp2", mkWire rand 26 "temp2"),
              ("sum2", mkWire rand 28 "sum2"), ("and3", mkWire rand 30 "and3"),
              ("and4", mkWire rand 32 "and4"), ("carry2", mkWire rand 34 "carry2")]
    gates := [mkGate H sh (inWire rand 0 "a0" x0) (inWire rand 6 "b0" y0)
                (mkWire rand 12 "sum0") .XOR "XOR" gid0,
              mkGate H sh (inWire rand 0 "a0" x0) (inWire rand 6 "b0" y0)
                (mkWire rand 14 "carry0") .AND "AND" (gid0 + 1),
              mkGate H sh (inWire rand 2 "a1" x1) (inWire rand 8 "b1" y1)
                (mkWire rand 16 "temp1") .XOR "XOR" (gid0 + 2),
              mkGate H sh (mkWire rand 16 "temp1") (mkWire rand 14 "carry0")
                (mkWire rand 18 "sum1") .XOR "XOR" (gid0 + 3),
              mkGate H sh (inWire rand 2 "a1" x1) (inWire rand 8 "b1" y1)
                (mkWire rand 20 "and1") .AND "AND" (gid0 + 4),
              mkGate H sh (mkWire rand 16 "temp1") (mkWire rand 14 "carry0")
                (mkWire rand 22 "and2") .AND "AND" (gid0 + 5),
              mkGate H sh (mkWire rand 20 "and1") (mkWire rand 22 "and2")
                (mkWire rand 24 "carry1") .OR "OR" (gid0 + 6),
              mkGate H sh (inWire rand 4 "a2" x2) (inWire rand 10 "b2" y2)
                (mkWire rand 26 "temp2") .XOR "XOR" (gid0 + 7),
              mkGate H sh (mkWire rand 26 "temp2") (mkWire rand 24 "carry1")
                (mkWire rand 28 "sum2") .XOR "XOR" (gid0 + 8),
              mkGate H sh (inWire rand 4 "a2" x2) (inWire rand 10 "b2" y2)
                (mkWire rand 30 "and3") .AND "AND" (gid0 + 9),
              mkGate H sh (mkWire rand 26 "temp2") (mkWire rand 24 "carry1")
                (mkWire rand 32 "and4") .AND "AND" (gid0 + 10),
              mkGate H sh (mkWire rand 30 "and3") (mkWire rand 32 "and4")
                (mkWire rand 34 "carry2") .OR "OR" (gid0 + 11)]
    full_sum_wires := ["sum0", "sum1", "sum2", "carry2"]
    result_wires := ["sum1", "sum2", "carry2"] }

/-- For bit inputs the construction succeeds and yields exactly the
ripple-carry circuit above, advancing the gate-id counter by 12. -/
theorem build_bits_eq (H : Hash) (rand : Nat → Nat) (sh : ShuffleFn)
    (x0 x1 x2 y0 y1 y2 gid0 : Nat)
    (hx0 : x0 < 2) (hx1 : x1 < 2) (hx2 : x2 < 2)
    (hy0 : y0 < 2) (hy1 : y1 < 2) (hy2 : y2 < 2) :
    GarbledFullAdderCircuit.build H rand sh [x0, x1, x2] [y0, y1, y2] gid0 =
      .ok (adderCircuit H rand sh x0 x1 x2 y0 y1 y2 gid0, gid0 + 12) := by
  rw [GarbledFullAdderCircuit.build, if_neg (by simp)]
  simp only [List.getD_cons_zero, List.getD_cons_succ]
  rw [set_value_bit _ _ hx0, set_value_bit _ _ hx1, set_value_bit _ _ hx2,
    set_value_bit _ _ hy0, set_value_bit _ _ hy1, set_value_bit _ _ hy2]
  rfl

/-- `get_bit_from_label` only reads the label pair, so it ignores updates of
the `evaluated_label` field. -/
@[simp] theorem get_bit_from_label_update (w : Wire) (e : Option Nat) :
    Wire.get_bit_from_label { w with evaluated_label := e } =
      Wire.get_bit_from_label w := rfl

/-- `get_bit_from_label` only depends on the wire's label pair. -/
@[simp] theorem get_bit_from_label_explicit (w : Wire) (n : String)
    (v e : Option Nat) (lab : Nat) :
    Wire.get_bit_from_label
      { name := n, label0 := w.label0, label1 := w.label1, value := v,
        evaluated_label := e } lab = w.get_bit_from_label lab := rfl

/-- The ripple-carry bit formulas the circuit computes agree with the
LSB-first binary digits of the arithmetic sum. -/
theorem adder_bits_arith (x0 x1 x2 y0 y1 y2 : Nat)
    (hx0 : x0 < 2) (hx1 : x1 < 2) (hx2 : x2 < 2)
    (hy0 : y0 < 2) (hy1 : y1 < 2) (hy2 : y2 < 2) :
    x0 ^^^ y0 =
      ((x0 + 2 * x1 + 4 * x2) + (y0 + 2 * y1 + 4 * y2)) / 2 ^ 0 % 2 ∧
    (x1 ^^^ y1) ^^^ (x0 &&& y0) =
      ((x0 + 2 * x1 + 4 * x2) + (y0 + 2 * y1 + 4 * y2)) / 2 ^ 1 % 2 ∧
    (x2 ^^^ y2) ^^^ ((x1 &&& y1) ||| ((x1 ^^^ y1) &&& (x0 &&& y0))) =
      ((x0 + 2 * x1 + 4 * x2) + (y0 + 2 * y1 + 4 * y2)) / 2 ^ 2 % 2 ∧
    (x2 &&& y2) |||
        ((x2 ^^^ y2) &&& ((x1 &&& y1) ||| ((x1 ^^^ y1) &&& (x0 &&& y0)))) =
      ((x0 + 2 * x1 + 4 * x2) + (y0 + 2 * y1 + 4 * y2)) / 2 ^ 3 % 2 := by
  interval_cases x0 <;> interval_cases x1 <;> interval_cases x2 <;>
    interval_cases y0 <;> interval_cases y1 <;> interval_cases y2 <;> decide

/-- The same formulas against the digits of the halved sum (the circuit's
designated "result" output). -/
theorem adder_result_arith (x0 x1 x2 y0 y1 y2 : Nat)
    (hx0 : x0 < 2) (hx1 : x1 < 2) (hx2 : x2 < 2)
    (hy0 : y0 < 2) (hy1 : y1 < 2) (hy2 : y2 < 2) :
    (x1 ^^^ y1) ^^^ (x0 &&& y0) =
      ((x0 + 2 * x1 + 4 * x2) + (y0 + 2 * y1 + 4 * y2)) / 2 / 2 ^ 0 % 2 ∧
    (x2 ^^^ y2) ^^^ ((x1 &&& y1) ||| ((x1 ^^^ y1) &&& (x0 &&& y0))) =
      ((x0 + 2 * x1 + 4 * x2) + (y0 + 2 * y1 + 4 * y2)) / 2 / 2 ^ 1 % 2 ∧
    (x2 &&& y2) |||
        ((x2 ^^^ y2) &&& ((x1 &&& y1) ||| ((x1 ^^^ y1) &&& (x0 &&& y0)))) =
      ((x0 + 2 * x1 + 4 * x2) + (y0 + 2 * y1 + 4 * y2)) / 2 / 2 ^ 2 % 2 := by
  interval_cases x0 <;> interval_cases x1 <;> interval_cases x2 <;>
    interval_cases y0 <;> interval_cases y1 <;> interval_cases y2 <;> decide

set_option maxHeartbeats 4000000 in
/-- C1: for every pair of 3-bit LSB-first inputs, every pad function, every
RNG, every genuine shuffle and every starting gate id, if construction
succeeded and the spec's §3 invariants hold for the built circuit
(distinct wire labels; no cross-combination decryption collision — what the
spec asserts of the SHA-256 pad with overwhelming probability), then the
decoded full sum is the 4-bit LSB-first encoding of A + B and the value
`evaluate` returns is the 3-bit LSB-first encoding of (A + B) >> 1. -/
theorem adder_end_to_end (H : Hash) (rand : Nat → Nat) (sh : ShuffleFn)
    (x0 x1 x2 y0 y1 y2 gid0 : Nat) (c : GarbledFullAdderCircuit) (n : Nat)
    (hx0 : x0 < 2) (hx1 : x1 < 2) (hx2 : x2 < 2)
    (hy0 : y0 < 2) (hy1 : y1 < 2) (hy2 : y2 < 2)
    (hsh : ∀ i l, List.Perm (sh i l) l)
    (hbuild : GarbledFullAdderCircuit.build H rand sh [x0, x1, x2]
      [y0, y1, y2] gid0 = .ok (c, n))
    (hsound : circuitSoundB H c = true) :
    c.fullSumBits H =
      some (natBits ((x0 + 2 * x1 + 4 * x2) + (y0 + 2 * y1 + 4 * y2)) 4) ∧
    c.evaluate H =
      some (natBits
        (((x0 + 2 * x1 + 4 * x2) + (y0 + 2 * y1 + 4 * y2)) / 2) 3) := by
  rw [build_bits_eq H rand sh x0 x1 x2 y0 y1 y2 gid0 hx0 hx1 hx2 hy0 hy1
    hy2] at hbuild
  injection hbuild with hbuild
  injection hbuild with hc hn
  subst hc
  subst hn
  -- the bit values on each internal wire
  have ht1 : x1 ^^^ y1 < 2 := GKind.func_lt_two .XOR x1 y1 hx1 hy1
  have hc0 : x0 &&& y0 < 2 := GKind.func_lt_two .AND x0 y0 hx0 hy0
  have hs0 : x0 ^^^ y0 < 2 := GKind.func_lt_two .XOR x0 y0 hx0 hy0
  have hs1 : (x1 ^^^ y1) ^^^ (x0 &&& y0) < 2 :=
    GKind.func_lt_two .XOR _ _ ht1 hc0
  have ha1 : x1 &&& y1 < 2 := GKind.func_lt_two .AND x1 y1 hx1 hy1
  have ha2 : (x1 ^^^ y1) &&& (x0 &&& y0) < 2 :=
    GKind.func_lt_two .AND _ _ ht1 hc0
  have hc1 : (x1 &&& y1) ||| ((x1 ^^^ y1) &&& (x0 &&& y0)) < 2 :=
    GKind.func_lt_two .OR _ _ ha1 ha2
  have ht2 : x2 ^^^ y2 < 2 := GKind.func_lt_two .XOR x2 y2 hx2 hy2
  have hs2 : (x2 ^^^ y2) ^^^
      ((x1 &&& y1) ||| ((x1 ^^^ y1) &&& (x0 &&& y0))) < 2 :=
    GKind.func_lt_two .XOR _ _ ht2 hc1
  have ha3 : x2 &&& y2 < 2 := GKind.func_lt_two .AND x2 y2 hx2 hy2
  have ha4 : (x2 ^^^ y2) &&&
      ((x1 &&& y1) ||| ((x1 ^^^ y1) &&& (x0 &&& y0))) < 2 :=
    GKind.func_lt_two .AND _ _ ht2 hc1
  have hcy2 : (x2 &&& y2) ||| ((x2 ^^^ y2) &&&
      ((x1 &&& y1) ||| ((x1 ^^^ y1) &&& (x0 &&& y0)))) < 2 :=
    GKind.func_lt_two .OR _ _ ha3 ha4
  -- unpack the soundness invariant
  rw [circuitSoundB, Bool.and_eq_true] at hsound
  obtain ⟨hdist, hgates⟩ := hsound
  rw [distinctLabelsB, List.all_eq_true] at hdist
  rw [List.all_eq_true] at hgates
  have hdS0 : (mkWire rand 12 "sum0").label0 ≠ (mkWire rand 12 "sum0").label1 := by
    simpa using hdist ("sum0", mkWire rand 12 "sum0") (by simp [adderCircuit])
  have hdS1 : (mkWire rand 18 "sum1").label0 ≠ (mkWire rand 18 "sum1").label1 := by
    simpa using hdist ("sum1", mkWire rand 18 "sum1") (by simp [adderCircuit])
  have hdS2 : (mkWire rand 28 "sum2").label0 ≠ (mkWire rand 28 "sum2").label1 := by
    simpa using hdist ("sum2", mkWire rand 28 "sum2") (by simp [adderCircuit])
  have hdC2 : (mkWire rand 34 "carry2").label0 ≠ (mkWire rand 34 "carry2").label1 := by
    simpa using hdist ("carry2", mkWire rand 34 "carry2") (by simp [adderCircuit])
  have hgd1 : goodGateWiresB H (inWire rand 0 "a0" x0) (inWire rand 6 "b0" y0)
      (mkWire rand 12 "sum0") gid0 .XOR = true := by
    have := hgates (mkGate H sh (inWire rand 0 "a0" x0) (inWire rand 6 "b0" y0)
      (mkWire rand 12 "sum0") .XOR "XOR" gid0) (by simp [adderCircuit])
    simpa [goodGateB, getWire] using this
  have hgd2 : goodGateWiresB H (inWire rand 0 "a0" x0) (inWire rand 6 "b0" y0)
      (mkWire rand 14 "carry0") (gid0 + 1) .AND = true := by
    have := hgates (mkGate H sh (inWire rand 0 "a0" x0) (inWire rand 6 "b0" y0)
      (mkWire rand 14 "carry0") .AND "AND" (gid0 + 1)) (by simp [adderCircuit])
    simpa [goodGateB, getWire] using this
  have hgd3 : goodGateWiresB H (inWire rand 2 "a1" x1) (inWire rand 8 "b1" y1)
      (mkWire rand 16 "temp1") (gid0 + 2) .XOR = true := by
    have := hgates (mkGate H sh (inWire rand 2 "a1" x1) (inWire rand 8 "b1" y1)
      (mkWire rand 16 "temp1") .XOR "XOR" (gid0 + 2)) (by simp [adderCircuit])
    simpa [goodGateB, getWire] using this
  have hgd4 : goodGateWiresB H (mkWire rand 16 "temp1") (mkWire rand 14 "carry0")
      (mkWire rand 18 "sum1") (gid0 + 3) .XOR = true := by
    have := hgates (mkGate H sh (mkWire rand 16 "temp1") (mkWire rand 14 "carry0")
      (mkWire rand 18 "sum1") .XOR "XOR" (gid0 + 3)) (by simp [adderCircuit])
    simpa [goodGateB, getWire] using this
  have hgd5 : goodGateWiresB H (inWire rand 2 "a1" x1) (inWire rand 8 "b1" y1)
      (mkWire rand 20 "and1") (gid0 + 4) .AND = true := by
    have := hgates (mkGate H sh (inWire rand 2 "a1" x1) (inWire rand 8 "b1" y1)
      (mkWire rand 20 "and1") .AND "AND" (gid0 + 4)) (by simp [adderCircuit])
    simpa [goodGateB, getWire] using this
  have hgd6 : goodGateWiresB H (mkWire rand 16 "temp1") (mkWire rand 14 "carry0")
      (mkWire rand 22 "and2") (gid0 + 5) .AND = true := by
    have := hgates (mkGate H sh (mkWire rand 16 "temp1") (mkWire rand 14 "carry0")
      (mkWire rand 22 "and2") .AND "AND" (gid0 + 5)) (by simp [adderCircuit])
    simpa [goodGateB, getWire] using this
  have hgd7 : goodGateWiresB H (mkWire rand 20 "and1") (mkWire rand 22 "and2")
      (mkWire rand 24 "carry1") (gid0 + 6) .OR = true := by
    have := hgates (mkGate H sh (mkWire rand 20 "and1") (mkWire rand 22 "and2")
      (mkWire rand 24 "carry1") .OR "OR" (gid0 + 6)) (by simp [adderCircuit])
    simpa [goodGateB, getWire] using this
  have hgd8 : goodGateWiresB H (inWire rand 4 "a2" x2) (inWire rand 10 "b2" y2)
      (mkWire rand 26 "temp2") (gid0 + 7) .XOR = true := by
    have := hgates (mkGate H sh (inWire rand 4 "a2" x2) (inWire rand 10 "b2" y2)
      (mkWire rand 26 "temp2") .XOR "XOR" (gid0 + 7)) (by simp [adderCircuit])
    simpa [goodGateB, getWire] using this
  have hgd9 : goodGateWiresB H (mkWire rand 26 "temp2") (mkWire rand 24 "carry1")
      (mkWire rand 28 "sum2") (gid0 + 8) .XOR = true := by
    have := hgates (mkGate H sh (mkWire rand 26 "temp2") (mkWire rand 24 "carry1")
      (mkWire rand 28 "sum2") .XOR "XOR" (gid0 + 8)) (by simp [adderCircuit])
    simpa [goodGateB, getWire] using this
  have hgd10 : goodGateWiresB H (inWire rand 4 "a2" x2) (inWire rand 10 "b2" y2)
      (mkWire rand 30 "and3") (gid0 + 9) .AND = true := by
    have := hgates (mkGate H sh (inWire rand 4 "a2" x2) (inWire rand 10 "b2" y2)
      (mkWire rand 30 "and3") .AND "AND" (gid0 + 9)) (by simp [adderCircuit])
    simpa [goodGateB, getWire] using this
  have hgd11 : goodGateWiresB H (mkWire rand 26 "temp2") (mkWire rand 24 "carry1")
      (mkWire rand 32 "and4") (gid0 + 10) .AND = true := by
    have := hgates (mkGate H sh (mkWire rand 26 "temp2") (mkWire rand 24 "carry1")
      (mkWire rand 32 "and4") .AND "AND" (gid0 + 10)) (by simp [adderCircuit])
    simpa [goodGateB, getWire] using this
  have hgd12 : goodGateWiresB H (mkWire rand 30 "and3") (mkWire rand 32 "and4")
      (mkWire rand 34 "carry2") (gid0 + 11) .OR = true := by
    have := hgates (mkGate H sh (mkWire rand 30 "and3") (mkWire rand 32 "and4")
      (mkWire rand 34 "carry2") .OR "OR" (gid0 + 11)) (by simp [adderCircuit])
    simpa [goodGateB, getWire] using this
  -- the per-gate evaluation equations
  have hg1 := gate_evaluate_correct H sh (inWire rand 0 "a0" x0)
    (inWire rand 6 "b0" y0) (mkWire rand 12 "sum0") .XOR "XOR" gid0
    x0 y0 hx0 hy0 hsh hgd1
  have hg2 := gate_evaluate_correct H sh (inWire rand 0 "a0" x0)
    (inWire rand 6 "b0" y0) (mkWire rand 14 "carry0") .AND "AND" (gid0 + 1)
    x0 y0 hx0 hy0 hsh hgd2
  have hg3 := gate_evaluate_correct H sh (inWire rand 2 "a1" x1)
    (inWire rand 8 "b1" y1) (mkWire rand 16 "temp1") .XOR "XOR" (gid0 + 2)
    x1 y1 hx1 hy1 hsh hgd3
  have hg4 := gate_evaluate_correct H sh (mkWire rand 16 "temp1")
    (mkWire rand 14 "carry0") (mkWire rand 18 "sum1") .XOR "XOR" (gid0 + 3)
    (x1 ^^^ y1) (x0 &&& y0) ht1 hc0 hsh hgd4
  have hg5 := gate_evaluate_correct H sh (inWire rand 2 "a1" x1)
    (inWire rand 8 "b1" y1) (mkWire rand 20 "and1") .AND "AND" (gid0 + 4)
    x1 y1 hx1 hy1 hsh hgd5
  have hg6 := gate_evaluate_correct H sh (mkWire rand 16 "temp1")
    (mkWire rand 14 "carry0") (mkWire rand 22 "and2") .AND "AND" (gid0 + 5)
    (x1 ^^^ y1) (x0 &&& y0) ht1 hc0 hsh hgd6
  have hg7 := gate_evaluate_correct H sh (mkWire rand 20 "and1")
    (mkWire rand 22 "and2") (mkWire rand 24 "carry1") .OR "OR" (gid0 + 6)
    (x1 &&& y1) ((x1 ^^^ y1) &&& (x0 &&& y0)) ha1 ha2 hsh hgd7
  have hg8 := gate_evaluate_correct H sh (inWire rand 4 "a2" x2)
    (inWire rand 10 "b2" y2) (mkWire rand 26 "temp2") .XOR "XOR" (gid0 + 7)
    x2 y2 hx2 hy2 hsh hgd8
  have hg9 := gate_evaluate_correct H sh (mkWire rand 26 "temp2")
    (mkWire rand 24 "carry1") (mkWire rand 28 "sum2") .XOR "XOR" (gid0 + 8)
    (x2 ^^^ y2) ((x1 &&& y1) ||| ((x1 ^^^ y1) &&& (x0 &&& y0))) ht2 hc1 hsh hgd9
  have hg10 := gate_evaluate_correct H sh (inWire rand 4 "a2" x2)
    (inWire rand 10 "b2" y2) (mkWire rand 30 "and3") .AND "AND" (gid0 + 9)
    x2 y2 hx2 hy2 hsh hgd10
  have hg11 := gate_evaluate_correct H sh (mkWire rand 26 "temp2")
    (mkWire rand 24 "carry1") (mkWire rand 32 "and4") .AND "AND" (gid0 + 10)
    (x2 ^^^ y2) ((x1 &&& y1) ||| ((x1 ^^^ y1) &&& (x0 &&& y0))) ht2 hc1 hsh hgd11
  have hg12 := gate_evaluate_correct H sh (mkWire rand 30 "and3")
    (mkWire rand 32 "and4") (mkWire rand 34 "carry2") .OR "OR" (gid0 + 11)
    (x2 &&& y2) ((x2 ^^^ y2) &&& ((x1 &&& y1) |||
      ((x1 ^^^ y1) &&& (x0 &&& y0)))) ha3 ha4 hsh hgd12
  simp only [labelFor_inWire, GKind.func] at hg1 hg2 hg3 hg4 hg5 hg6
  simp only [labelFor_inWire, GKind.func] at hg7 hg8 hg9 hg10 hg11 hg12
  -- the decode equations for the four output wires
  have hdecS0 := get_bit_from_label_labelFor (mkWire rand 12 "sum0") _ hs0 hdS0
  have hdecS1 := get_bit_from_label_labelFor (mkWire rand 18 "sum1") _ hs1 hdS1
  have hdecS2 := get_bit_from_label_labelFor (mkWire rand 28 "sum2") _ hs2 hdS2
  have hdecC2 := get_bit_from_label_labelFor (mkWire rand 34 "carry2") _ hcy2 hdC2
  obtain ⟨e0, e1, e2, e3⟩ := adder_bits_arith x0 x1 x2 y0 y1 y2 hx0 hx1 hx2
    hy0 hy1 hy2
  obtain ⟨f0, f1, f2⟩ := adder_result_arith x0 x1 x2 y0 y1 y2 hx0 hx1 hx2
    hy0 hy1 hy2
  constructor
  · rw [GarbledFullAdderCircuit.fullSumBits]
    simp only [adderCircuit, runGates, getWire, setWire, decodeWire,
      mkGate_in1, mkGate_in2, mkGate_out, mkGate_gate_id, mkGate_kind,
      inWire_name, mkWire_name, inWire_evaluated_label, mkWire_evaluated_label,
      hg1, hg2, hg3, hg4, hg5, hg6, hg7, hg8, hg9, hg10, hg11, hg12,
      get_bit_from_label_update, get_bit_from_label_explicit,
      hdecS0, hdecS1, hdecS2, hdecC2,
      natBits, List.range, List.range.loop, List.map, Option.map,
      Option.some.injEq, List.cons.injEq, and_true, true_and,
      if_true, if_false, String.reduceEq, reduceIte]
    exact ⟨e0, e1, e2, e3⟩
  · rw [GarbledFullAdderCircuit.evaluate]
    simp only [adderCircuit, runGates, getWire, setWire, decodeWire,
      mkGate_in1, mkGate_in2, mkGate_out, mkGate_gate_id, mkGate_kind,
      inWire_name, mkWire_name, inWire_evaluated_label, mkWire_evaluated_label,
      hg1, hg2, hg3, hg4, hg5, hg6, hg7, hg8, hg9, hg10, hg11, hg12,
      get_bit_from_label_update, get_bit_from_label_explicit,
      hdecS1, hdecS2, hdecC2,
      natBits, List.range, List.range.loop, List.map, Option.map,
      Option.some.injEq, List.cons.injEq, and_true, true_and,
      if_true, if_false, String.reduceEq, reduceIte]
    exact ⟨f0, f1, f2⟩

theorem mkWire_label0 (rand : Nat → Nat) (k : Nat) (n : String) :
    (mkWire rand k n).label0 = rand k % 2 ^ 64 := rfl

theorem mkWire_label1 (rand : Nat → Nat) (k : Nat) (n : String) :
    (mkWire rand k n).label1 = rand (k + 1) % 2 ^ 64 := rfl

/-- C6: every constructed gate's garbled table holds exactly 4 ciphertexts,
and they are — in the shuffled order, with the combination tags discarded —
exactly the four encryptions of the output labels under the matching input
labels and the gate id.  (The table is built once in the constructor; no
operation of the embedding returns a modified gate, so it is never mutated
afterwards.) -/
theorem gate_table_four_ciphertexts (H : Hash) (sh : ShuffleFn)
    (w1 w2 wout : Wire) (k : GKind) (gt : String) (gid : Nat)
    (hsh : ∀ i l, List.Perm (sh i l) l) :
    (mkGate H sh w1 w2 wout k gt gid).garbled_table.length = 4 ∧
    List.Perm (mkGate H sh w1 w2 wout k gt gid).garbled_table
      [encrypt H (labelFor w1 0) (labelFor w2 0) gid (labelFor wout (k.func 0 0)),
       encrypt H (labelFor w1 0) (labelFor w2 1) gid (labelFor wout (k.func 0 1)),
       encrypt H (labelFor w1 1) (labelFor w2 0) gid (labelFor wout (k.func 1 0)),
       encrypt H (labelFor w1 1) (labelFor w2 1) gid (labelFor wout (k.func 1 1))] := by
  have hp : List.Perm ((sh gid (garbleTable H w1 w2 wout gid k)).map Prod.snd)
      ((garbleTable H w1 w2 wout gid k).map Prod.snd) :=
    (hsh gid _).map _
  have he : (garbleTable H w1 w2 wout gid k).map Prod.snd =
      [encrypt H (labelFor w1 0) (labelFor w2 0) gid (labelFor wout (k.func 0 0)),
       encrypt H (labelFor w1 0) (labelFor w2 1) gid (labelFor wout (k.func 0 1)),
       encrypt H (labelFor w1 1) (labelFor w2 0) gid (labelFor wout (k.func 1 0)),
       encrypt H (labelFor w1 1) (labelFor w2 1) gid (labelFor wout (k.func 1 1))] := rfl
  rw [he] at hp
  exact ⟨hp.length_eq.trans rfl, hp⟩

/-- C7: the constructor rejects inputs that are not exactly 3 bits long with
the `InvalidInputLength` failure, before any wire or gate is created: the
returned value is the bare error, carrying no circuit and no advanced
gate-id counter (construction returns the updated counter only on
success). -/
theorem build_invalid_length (H : Hash) (rand : Nat → Nat) (sh : ShuffleFn)
    (a_bits b_bits : List Nat) (gid0 : Nat)
    (h : a_bits.length ≠ 3 ∨ b_bits.length ≠ 3) :
    GarbledFullAdderCircuit.build H rand sh a_bits b_bits gid0 =
      .error .invalidInputLength := by
  rw [GarbledFullAdderCircuit.build, if_pos h]

/-- C10: the constructor checks only the lengths; for 3-element inputs
containing a value outside {0, 1}, the length check passes and construction
then dies with the unguarded `KeyError` of `self.labels[value]` — so the
effective precondition of the build interface is that every element of both
sequences is 0 or 1. -/
theorem build_nonbit_keyError (H : Hash) (rand : Nat → Nat) (sh : ShuffleFn)
    (a_bits b_bits : List Nat) (gid0 : Nat)
    (ha : a_bits.length = 3) (hb : b_bits.length = 3)
    (hbad : ∃ v ∈ a_bits ++ b_bits, 2 ≤ v) :
    GarbledFullAdderCircuit.build H rand sh a_bits b_bits gid0 =
      .error .keyError := by
  obtain ⟨x0, x1, x2, rfl⟩ := List.length_eq_three.mp ha
  obtain ⟨y0, y1, y2, rfl⟩ := List.length_eq_three.mp hb
  rw [GarbledFullAdderCircuit.build, if_neg (by simp)]
  simp only [List.getD_cons_zero, List.getD_cons_succ]
  by_cases h0 : x0 < 2
  case neg => rw [set_value_nonbit _ _ (Nat.le_of_not_lt h0)]; rfl
  rw [set_value_bit _ _ h0]
  by_cases h1 : x1 < 2
  case neg => rw [set_value_nonbit _ _ (Nat.le_of_not_lt h1)]; rfl
  rw [set_value_bit _ _ h1]
  by_cases h2 : x2 < 2
  case neg => rw [set_value_nonbit _ _ (Nat.le_of_not_lt h2)]; rfl
  rw [set_value_bit _ _ h2]
  by_cases h3 : y0 < 2
  case neg => rw [set_value_nonbit _ _ (Nat.le_of_not_lt h3)]; rfl
  rw [set_value_bit _ _ h3]
  by_cases h4 : y1 < 2
  case neg => rw [set_value_nonbit _ _ (Nat.le_of_not_lt h4)]; rfl
  rw [set_value_bit _ _ h4]
  by_cases h5 : y2 < 2
  case neg => rw [set_value_nonbit _ _ (Nat.le_of_not_lt h5)]; rfl
  exfalso
  obtain ⟨v, hv, hge⟩ := hbad
  simp only [List.mem_append, List.mem_cons, List.not_mem_nil, or_false] at hv
  rcases hv with (rfl | rfl | rfl) | (rfl | rfl | rfl) <;> omega

/-- C9 (amended): the two labels of every wire of a built circuit are
distinct whenever the RNG's two draws for that wire are distinct modulo
2^64 (wire number `j` of the build consumes draws `2j` and `2j+1`); the
constructor itself enforces nothing — see the counterexample with a
constant RNG. -/
theorem wire_labels_distinct_of_draws (H : Hash) (rand : Nat → Nat)
    (sh : ShuffleFn) (x0 x1 x2 y0 y1 y2 gid0 : Nat)
    (c : GarbledFullAdderCircuit) (n : Nat)
    (hx0 : x0 < 2) (hx1 : x1 < 2) (hx2 : x2 < 2)
    (hy0 : y0 < 2) (hy1 : y1 < 2) (hy2 : y2 < 2)
    (hbuild : GarbledFullAdderCircuit.build H rand sh [x0, x1, x2]
      [y0, y1, y2] gid0 = .ok (c, n))
    (hr : ∀ j, j < 18 → rand (2 * j) % 2 ^ 64 ≠ rand (2 * j + 1) % 2 ^ 64) :
    distinctLabelsB c.wires = true := by
  rw [build_bits_eq H rand sh x0 x1 x2 y0 y1 y2 gid0 hx0 hx1 hx2 hy0 hy1
    hy2] at hbuild
  injection hbuild with hbuild
  injection hbuild with hc hn
  subst hc
  simp only [distinctLabelsB, adderCircuit, List.all_cons, List.all_nil,
    Bool.and_eq_true, bne_iff_ne, ne_eq, inWire_label0, inWire_label1,
    mkWire_label0, mkWire_label1]
  refine ⟨hr 0 (by omega), hr 1 (by omega), hr 2 (by omega), hr 3 (by omega),
    hr 4 (by omega), hr 5 (by omega), hr 6 (by omega), hr 7 (by omega),
    hr 8 (by omega), hr 9 (by omega), hr 10 (by omega), hr 11 (by omega),
    hr 12 (by omega), hr 13 (by omega), hr 14 (by omega), hr 15 (by omega),
    hr 16 (by omega), hr 17 (by omega), trivial⟩

/-- C3 (amended): `evaluate` returns only the decoded 3-bit `result`
sequence (on success a list of length 3); the 4-bit full sum is not part of
the return value, but remains retrievable by a driver by decoding the
circuit's designated `full_sum_wires` (`sum0` plus the three result wires)
from the evaluated circuit. -/
theorem evaluate_returns_result_only (H : Hash) (rand : Nat → Nat)
    (sh : ShuffleFn) (x0 x1 x2 y0 y1 y2 gid0 : Nat)
    (c : GarbledFullAdderCircuit) (n : Nat)
    (hx0 : x0 < 2) (hx1 : x1 < 2) (hx2 : x2 < 2)
    (hy0 : y0 < 2) (hy1 : y1 < 2) (hy2 : y2 < 2)
    (hbuild : GarbledFullAdderCircuit.build H rand sh [x0, x1, x2]
      [y0, y1, y2] gid0 = .ok (c, n)) :
    c.result_wires = ["sum1", "sum2", "carry2"] ∧
    c.full_sum_wires = ["sum0", "sum1", "sum2", "carry2"] ∧
    (∀ out, c.evaluate H = some out → out.length = 3) ∧
    (∀ fs, c.fullSumBits H = some fs → fs.length = 4) := by
  rw [build_bits_eq H rand sh x0 x1 x2 y0 y1 y2 gid0 hx0 hx1 hx2 hy0 hy1
    hy2] at hbuild
  injection hbuild with hbuild
  injection hbuild with hc hn
  subst hc
  refine ⟨rfl, rfl, ?_, ?_⟩
  · intro out hout
    rw [GarbledFullAdderCircuit.evaluate] at hout
    obtain ⟨ws, _, rfl⟩ := Option.map_eq_some'.mp hout
    rfl
  · intro fs hfs
    rw [GarbledFullAdderCircuit.fullSumBits] at hfs
    obtain ⟨ws, _, rfl⟩ := Option.map_eq_some'.mp hfs
    rfl

/-- C5 (amended): a gate's `evaluate` yields the GarbleMismatch outcome —
return `None` with the output wire left unevaluated — exactly when none of
the four trial decryptions under the supplied labels lands on either output
label; in particular it does so for labels outside the wires' valid pairs
whenever no such pad collision occurs (which the accept-on-match scheme
cannot rule out unconditionally — see the counterexample). -/
theorem gate_mismatch_on_all_miss (H : Hash) (g : Gate) (la lb : Nat)
    (wout : Wire)
    (hmiss : ∀ ct ∈ g.garbled_table,
      decrypt H la lb g.gate_id ct ≠ wout.label0 ∧
      decrypt H la lb g.gate_id ct ≠ wout.label1) :
    g.evaluate H la lb wout = (none, wout) := by
  rw [Gate.evaluate, tryDecrypt_none _ _ _ _ _ _ _ hmiss]

/-- C8: `decrypt ∘ encrypt` is the identity for every pad function, every
key pair, every gate id and every label; encryption and decryption are the
same XOR-with-pad operation; and the pad is deterministic — the pad
recovered from any encryption (`encrypt x ^ x`) is the same value for every
input, namely `hash_value` of the fixed `(key1, key2, gate_id)`. -/
theorem encrypt_decrypt_roundtrip (H : Hash) (key1 key2 gate_id lab x : Nat) :
    decrypt H key1 key2 gate_id (encrypt H key1 key2 gate_id lab) = lab ∧
    encrypt H key1 key2 gate_id x = decrypt H key1 key2 gate_id x ∧
    encrypt H key1 key2 gate_id lab ^^^ lab =
      hash_value H key1 key2 gate_id := by
  refine ⟨?_, rfl, ?_⟩
  · show lab ^^^ hash_value H key1 key2 gate_id ^^^
      hash_value H key1 key2 gate_id = lab
    exact Nat.xor_cancel_right _ _
  · show lab ^^^ hash_value H key1 key2 gate_id ^^^ lab = _
    rw [Nat.xor_comm lab (hash_value H key1 key2 gate_id), Nat.xor_assoc,
      Nat.xor_self, Nat.xor_zero]

/-! Concrete instantiations used by the witnesses and counterexamples.
`H0` is a pad function whose pads for distinct key/id triples lie in
distinct high 32-bit bands, so no decryption collisions occur on the small
labels used below; `Hzero` is the degenerate all-zero pad; `rand0` is an
injective RNG; `randZero` a constant one; `shId` the identity shuffle (one
of the permutations `random.shuffle` can produce). -/

def H0 : Hash := fun k1 k2 g => (k1 + 3 * k2 + 9 * g + 1) * 4294967296

def Hzero : Hash := fun _ _ _ => 0

def rand0 : Nat → Nat := fun k => k + 1

def randZero : Nat → Nat := fun _ => 0

def shId : ShuffleFn := fun _ l => l

def emptyCircuit : GarbledFullAdderCircuit :=
  { wires := [], gates := [], full_sum_wires := [], result_wires := [] }

/-- The circuit built for A = 5 (`[1,0,1]`), B = 1 (`[1,0,0]`). -/
def cW : GarbledFullAdderCircuit :=
  ((GarbledFullAdderCircuit.build H0 rand0 shId [1, 0, 1] [1, 0, 0]
    0).toOption.map Prod.fst).getD emptyCircuit

/-- The circuit built for A = 0, B = 0. -/
def c31 : GarbledFullAdderCircuit :=
  ((GarbledFullAdderCircuit.build H0 rand0 shId [0, 0, 0] [0, 0, 0]
    0).toOption.map Prod.fst).getD emptyCircuit

/-- The circuit built for A = 1 (`[1,0,0]`), B = 0. -/
def c32 : GarbledFullAdderCircuit :=
  ((GarbledFullAdderCircuit.build H0 rand0 shId [1, 0, 0] [0, 0, 0]
    0).toOption.map Prod.fst).getD emptyCircuit

/-- The circuit built with a constant RNG (every draw returns 0). -/
def cZero : GarbledFullAdderCircuit :=
  ((GarbledFullAdderCircuit.build H0 randZero shId [0, 0, 0] [0, 0, 0]
    0).toOption.map Prod.fst).getD emptyCircuit

def wX : Wire :=
  { name := "wx", label0 := 1, label1 := 2, value := none,
    evaluated_label := none }

def wY : Wire :=
  { name := "wy", label0 := 4, label1 := 8, value := none,
    evaluated_label := none }

def wZ : Wire :=
  { name := "wz", label0 := 5, label1 := 6, value := none,
    evaluated_label := none }

/-- A gate over `wX`, `wY`, `wZ`, later fed labels matching no table
entry. -/
def gBad : Gate := mkGate H0 shId wX wY wZ .XOR "XOR" 0

/-- A wire state carrying evaluated labels (100, 200) that belong to
neither input wire's label pair. -/
def wsBad : WireMap :=
  [("wx", { wX with evaluated_label := some 100 }),
   ("wy", { wY with evaluated_label := some 200 }),
   ("wz", wZ)]

/-- C4: the code does not surface evaluation failures as distinct typed
failures: a gate whose four trial decryptions all miss (here: fed labels
(100, 200) matching no table entry) prints a warning to stderr and returns
bare `None`, leaving its output wire unevaluated; the circuit-level loop
then simply continues — `runGates` still returns a successful wire state —
and the final decode silently yields a null bit for the output wire rather
than any typed `LabelDecodeFailure` (the missing-input-label case likewise
only prints and returns bare `None`). -/
theorem failure_logged_and_continued :
    gBad.evaluate H0 100 200 wZ = (none, wZ) ∧
    runGates H0 [gBad] wsBad = some wsBad ∧
    (runGates H0 [gBad] wsBad).map (fun ws => decodeWire ws "wz") =
      some none :=
  ⟨rfl, rfl, rfl⟩

/-- Witness for C1 at A = 5, B = 1: the side conditions hold for the
concrete pad/RNG/shuffle, and the theorem yields full sum 6 = `[0,1,1,0]`
and result 3 = `[1,1,0]`. -/
theorem adder_end_to_end_witness :
    GarbledFullAdderCircuit.build H0 rand0 shId [1, 0, 1] [1, 0, 0] 0 =
      .ok (cW, 12) ∧
    circuitSoundB H0 cW = true ∧
    cW.fullSumBits H0 = some (natBits 6 4) ∧
    cW.evaluate H0 = some (natBits 3 3) := by
  have hb : GarbledFullAdderCircuit.build H0 rand0 shId [1, 0, 1] [1, 0, 0]
      0 = .ok (cW, 12) := by rfl
  have hs : circuitSoundB H0 cW = true := by decide
  have h := adder_end_to_end H0 rand0 shId 1 0 1 1 0 0 0 cW 12
    (by omega) (by omega) (by omega) (by omega) (by omega) (by omega)
    (fun _ l => List.Perm.refl l) hb hs
  norm_num at h
  exact ⟨hb, hs, h.1, h.2⟩

/-- Witness for C2 at the concrete gate over `wX`, `wY`, `wZ` with input
bits (1, 0): the gate invariant holds and `evaluate` returns the output
label for `1 XOR 0` and records it. -/
theorem gate_evaluate_correct_witness :
    goodGateWiresB H0 wX wY wZ 0 GKind.XOR = true ∧
    (mkGate H0 shId wX wY wZ .XOR "XOR" 0).evaluate H0 (labelFor wX 1)
        (labelFor wY 0) wZ =
      (some (labelFor wZ (GKind.XOR.func 1 0)),
        { wZ with evaluated_label := some (labelFor wZ (GKind.XOR.func 1 0)) }) :=
  ⟨by decide, gate_evaluate_correct H0 shId wX wY wZ .XOR "XOR" 0 1 0
    (by omega) (by omega) (fun _ l => List.Perm.refl l) (by decide)⟩

/-- Witness for C3 (amended) at the circuit for A = B = 0. -/
theorem evaluate_returns_result_only_witness :
    c31.result_wires = ["sum1", "sum2", "carry2"] ∧
    c31.full_sum_wires = ["sum0", "sum1", "sum2", "carry2"] ∧
    c31.evaluate H0 = some [some 0, some 0, some 0] ∧
    [some 0, some 0, (some 0 : Option Nat)].length = 3 := by
  have h := evaluate_returns_result_only H0 rand0 shId 0 0 0 0 0 0 0 c31 12
    (by omega) (by omega) (by omega) (by omega) (by omega) (by omega)
    (by rfl)
  exact ⟨h.1, h.2.1, by rfl, h.2.2.1 _ (by rfl)⟩

/-- Counterexample for C3: the builds for A = 0 and A = 1 (same pad, RNG
and shuffle) return identical values from `evaluate`, yet their full sums
differ — so the value `evaluate` returns to the caller cannot contain the
4-bit full sum; only the 3-bit result is returned (the full sum being
separately retrievable from the evaluated circuit's `full_sum_wires`). -/
theorem evaluate_pair_counterexample :
    c31.evaluate H0 = c32.evaluate H0 ∧
    c31.fullSumBits H0 = some [some 0, some 0, some 0, some 0] ∧
    c32.fullSumBits H0 = some [some 1, some 0, some 0, some 0] :=
  ⟨rfl, rfl, rfl⟩

/-- Witness for C5 (amended): under the non-colliding pad `H0`, labels
(999, 998) — outside both wires' pairs — make every trial decryption miss,
and `evaluate` returns the mismatch outcome. -/
theorem gate_mismatch_on_all_miss_witness :
    (mkGate H0 shId wX wY wZ .XOR "XOR" 0).evaluate H0 999 998 wZ =
      (none, wZ) :=
  gate_mismatch_on_all_miss H0 (mkGate H0 shId wX wY wZ .XOR "XOR" 0)
    999 998 wZ (by decide)

/-- Counterexample for C5: under a colliding pad (all pads zero), feeding
the gate labels (999, 998) — neither of which belongs to the input wires'
label pairs — does not yield the GarbleMismatch outcome: it returns a
valid-looking output label (the output wire's bit-0 label) and records it
on the output wire. -/
theorem gate_mismatch_counterexample :
    (999 ≠ wX.label0 ∧ 999 ≠ wX.label1 ∧ 998 ≠ wY.label0 ∧
      998 ≠ wY.label1) ∧
    (mkGate Hzero shId wX wY wZ .XOR "XOR" 0).evaluate Hzero 999 998 wZ =
      (some wZ.label0, { wZ with evaluated_label := some wZ.label0 }) :=
  ⟨by decide, rfl⟩

/-- Witness for C6 at the concrete gate over `wX`, `wY`, `wZ`. -/
theorem gate_table_four_ciphertexts_witness :
    (mkGate H0 shId wX wY wZ .XOR "XOR" 0).garbled_table.length = 4 ∧
    List.Perm (mkGate H0 shId wX wY wZ .XOR "XOR" 0).garbled_table
      [encrypt H0 (labelFor wX 0) (labelFor wY 0) 0
        (labelFor wZ (GKind.XOR.func 0 0)),
       encrypt H0 (labelFor wX 0) (labelFor wY 1) 0
        (labelFor wZ (GKind.XOR.func 0 1)),
       encrypt H0 (labelFor wX 1) (labelFor wY 0) 0
        (labelFor wZ (GKind.XOR.func 1 0)),
       encrypt H0 (labelFor wX 1) (labelFor wY 1) 0
        (labelFor wZ (GKind.XOR.func 1 1))] :=
  gate_table_four_ciphertexts H0 shId wX wY wZ .XOR "XOR" 0
    (fun _ l => List.Perm.refl l)

/-- Witness for C7: a 0-bit first input is rejected with
`InvalidInputLength`, whatever the counter value. -/
theorem build_invalid_length_witness :
    GarbledFullAdderCircuit.build H0 rand0 shId [] [0, 0, 0] 5 =
      .error .invalidInputLength :=
  build_invalid_length H0 rand0 shId [] [0, 0, 0] 5 (Or.inl (by decide))

/-- Witness for C9 (amended): with the injective RNG `rand0` every wire of
the built circuit has distinct labels. -/
theorem wire_labels_distinct_of_draws_witness :
    distinctLabelsB cW.wires = true :=
  wire_labels_distinct_of_draws H0 rand0 shId 1 0 1 1 0 0 0 cW 12
    (by omega) (by omega) (by omega) (by omega) (by omega) (by omega)
    (by rfl) (by decide)

/-- Counterexample for C9: with a constant RNG the constructor still builds
the circuit — nothing enforces label distinctness — and wire `a0` gets the
same label (0) for both bits. -/
theorem wire_labels_collide_counterexample :
    GarbledFullAdderCircuit.build H0 randZero shId [0, 0, 0] [0, 0, 0] 0 =
      .ok (cZero, 12) ∧
    (getWire cZero.wires "a0").map Wire.label0 = some 0 ∧
    (getWire cZero.wires "a0").map Wire.label1 = some 0 :=
  ⟨rfl, rfl, rfl⟩

/-- Witness for C10: `[2, 0, 0]` passes the length check and construction
fails with the `KeyError` of the label-dict lookup. -/
theorem build_nonbit_keyError_witness :
    GarbledFullAdderCircuit.build H0 rand0 shId [2, 0, 0] [0, 0, 0] 7 =
      .error .keyError :=
  build_nonbit_keyError H0 rand0 shId [2, 0, 0] [0, 0, 0] 7 rfl rfl
    ⟨2, by decide, by omega⟩

end GarbledCircuit
